import Mathlib

/-!
Shallow embedding of the policeScrapper repository.

The repository polls a reservation web site for open appointment slots.
Its core pieces, modelled here from the Go sources:

* `findAvailableSlots` — the in-page query script built by
  `createSlotScript` (src/internal/browser/browser.go): scans a table DOM
  snapshot for cells matching a target location/category that carry the
  availability icon, have a header-mapped date that is not past, and no
  closed icon.
* `CheckAvailability` — the pagination loop of the same file: initial
  navigation with up to 3 retries, then up to `maxPages` page queries,
  returning the first non-empty slot list.
* `sendMessage` / `NotifyAvailableSlots` — the LINE notifier
  (src/pkg/line/line.go).
* `mainLoopIter` — one iteration of the process loop (cmd main), tracking
  the consecutive-error counter and the wait before the next cycle.

The browser, the DOM and the HTTP transport are modelled as explicit data
(oracles); JavaScript `Date` arithmetic is modelled exactly, including
month/day overflow normalisation.
-/

/-- A bookable slot, as produced by the page script and consumed by the
notifier (`Slot` in src/pkg/scraper). -/
structure Slot where
  location : String
  category : String
  date : String
  available : Bool
deriving DecidableEq

/-- The fixed location/category filter (`Target` in src/pkg/config). -/
structure Target where
  location : String
  category : String
deriving DecidableEq

/-! ## JavaScript date arithmetic

The page script compares `new Date(year, month-1, day)` (midnight, local
time) against a `now` carrying the current Tokyo wall-clock date and time.
JavaScript normalises out-of-range month indices and days, so the model
computes a civil day number that is linear in the day argument. -/

/-- Day number of the civil date `(y, m, d)` relative to 1970-01-01, for
`m ∈ [1,12]` and arbitrary `d` (day overflow rolls into later months, as
in JavaScript `Date`). -/
def daysFromCivil (y m d : Int) : Int :=
  let y := if m ≤ 2 then y - 1 else y
  let era := y.ediv 400
  let yoe := y - era * 400
  let mp := m + (if 2 < m then -3 else 9)
  let doy := (153 * mp + 2).ediv 5 + d - 1
  let doe := yoe * 365 + yoe.ediv 4 - yoe.ediv 100 + doy
  era * 146097 + doe - 719468

/-- Day number of the JavaScript date `new Date(year, monthIndex, day)`
(local time), with the month index normalised the way JavaScript does. -/
def jsDateDays (year monthIndex day : Int) : Int :=
  daysFromCivil (year + monthIndex.ediv 12) (monthIndex.emod 12 + 1) day

/-- Civil date `(y, m, d)` of a day number: inverse of `daysFromCivil` on
valid dates, used to read back the normalised fields of a `Date`. -/
def civilFromDays (z0 : Int) : Int × Int × Int :=
  let z := z0 + 719468
  let era := z.ediv 146097
  let doe := z - era * 146097
  let yoe := (doe - doe.ediv 1460 + doe.ediv 36524 - doe.ediv 146096).ediv 365
  let y := yoe + era * 400
  let doy := doe - (365 * yoe + yoe.ediv 4 - yoe.ediv 100)
  let mp := (5 * doy + 2).ediv 153
  let d := doy - (153 * mp + 2).ediv 5 + 1
  let m := mp + (if mp < 10 then 3 else -9)
  (if m ≤ 2 then y + 1 else y, m, d)

/-- The current instant in the fixed Asia/Tokyo timezone, as the page
script observes it: calendar fields plus milliseconds past midnight
(`month` is `getMonth()+1`, i.e. 1-based). -/
structure Now where
  year : Int
  month : Int
  day : Int
  msOfDay : Int
deriving DecidableEq

/-- Day number of the slot cell's date: `new Date(now.year, month-1, day)`,
then, when `month < now.month`, `setFullYear(now.year + 1)` — which
JavaScript applies to the already-normalised month/day fields. -/
def slotDateDays (n : Now) (month day : Int) : Int :=
  let d0 := jsDateDays n.year (month - 1) day
  if month < n.month then
    let (_, m, d) := civilFromDays d0
    jsDateDays (n.year + 1) (m - 1) d
  else d0

/-- Day number of the current date. -/
def nowDays (n : Now) : Int := jsDateDays n.year (n.month - 1) n.day

/-- Millisecond value of `now` (midnight of the current date plus the
time of day). -/
def nowMs (n : Now) : Int := 86400000 * nowDays n + n.msOfDay

/-- Millisecond value of the slot date (midnight). -/
def slotMs (n : Now) (month day : Int) : Int := 86400000 * slotDateDays n month day

/-- Modelled from the spec: "skips dates already in the past (computed
relative to current date in a fixed timezone)" — a date is past when its
day precedes the current date's day, time of day playing no role. -/
def dateInPast (n : Now) (month day : Int) : Bool :=
  decide (slotDateDays n month day < nowDays n)

/-! ## JavaScript string primitives used by the page script -/

/-- JavaScript `\d`: an ASCII digit. -/
def isDigitChar (c : Char) : Bool := 48 ≤ c.toNat && c.toNat ≤ 57

/-- Whitespace for JavaScript `String.prototype.trim`. -/
def isJsWhitespace (c : Char) : Bool :=
  c.toNat = 32 || c.toNat = 9 || c.toNat = 10 || c.toNat = 11 || c.toNat = 12 ||
  c.toNat = 13 || c.toNat = 160 || c.toNat = 5760 ||
  (8192 ≤ c.toNat && c.toNat ≤ 8202) ||
  c.toNat = 8232 || c.toNat = 8233 || c.toNat = 8239 || c.toNat = 8287 ||
  c.toNat = 12288 || c.toNat = 65279

/-- Drop leading JavaScript whitespace. -/
def dropJsWhitespace : List Char → List Char
  | [] => []
  | c :: t => if isJsWhitespace c then dropJsWhitespace t else c :: t

/-- JavaScript `s.trim()`. -/
def jsTrim (s : String) : String :=
  String.mk ((dropJsWhitespace ((dropJsWhitespace s.data.reverse).reverse)))

/-- First match of the regular expression `\d{2}\/\d{2}` in a character
list (leftmost occurrence, as JavaScript `String.prototype.match`). -/
def matchMMDD : List Char → Option (List Char)
  | [] => none
  | a :: t =>
    match t with
    | b :: s :: c :: d :: _ =>
      if isDigitChar a && isDigitChar b && s == '/' && isDigitChar c && isDigitChar d then
        some [a, b, s, c, d]
      else
        matchMMDD t
    | _ => matchMMDD t

/-- `parseInt` of a two-digit capture. -/
def twoDigitInt (a b : Char) : Int := (((a.toNat - 48) * 10 + (b.toNat - 48) : Nat) : Int)

/-- The script's re-parse of a mapped date text with
`/(\d{2})\/(\d{2})/`, yielding `parseInt` month and day. -/
def parseSlotDate (dateText : String) : Option (Int × Int) :=
  match matchMMDD dateText.data with
  | some (a :: b :: _ :: c :: d :: _) => some (twoDigitInt a b, twoDigitInt c d)
  | _ => none

/-! ## DOM snapshot model

A table cell records the features the script queries: whether it is a
`th`, its class tokens, its text content, the `aria-label`s of its svg
descendants (in document order), and the text of its first `a` descendant
when one exists. -/

/-- One `th`/`td` cell of the table. -/
structure Cell where
  isTh : Bool
  classes : List String
  text : String
  svgLabels : List String
  anchorText : Option String
deriving DecidableEq

/-- One `tr` row. -/
structure Row where
  id : String
  cells : List Cell
deriving DecidableEq

/-- The `table.time--table` element. -/
structure Table where
  rows : List Row
deriving DecidableEq

/-- `row.querySelector('th a')` followed by `.textContent.trim()`:
the trimmed text of the first anchor inside a `th`, `""` when absent. -/
def rowLocation (r : Row) : String :=
  match r.cells.find? (fun c => c.isTh && c.anchorText.isSome) with
  | some c => jsTrim (c.anchorText.getD "")
  | none => ""

/-- `row.querySelector('th.main_color')` followed by
`.textContent.trim()`, `""` when absent. -/
def rowCategory (r : Row) : String :=
  match r.cells.find? (fun c => c.isTh && c.classes.contains "main_color") with
  | some c => jsTrim c.text
  | none => ""

/-- `dateMap.get(index)`: the header's `forEach` stores, for each column
index whose cell has truthy text and whose trimmed text matches
`/(\d{2}\/\d{2})/`, the matched date text; indices are distinct, so the
map lookup is computed directly from the header cell at the index. -/
def dateMapGet (headerCells : List Cell) (index : Nat) : Option String :=
  match headerCells[index]? with
  | none => none
  | some cell =>
    if cell.text == "" then none
    else (matchMMDD (jsTrim cell.text).data).map String.mk

/-- The slots contributed by one cell of a matching row (the inner
`cells.forEach` body of the script, each `return` giving `[]`). -/
def cellSlots (headerCells : List Cell) (n : Now) (location category : String)
    (cellIndex : Nat) (cell : Cell) : List Slot :=
  if cell.classes.contains "tdSelect" && cell.classes.contains "enable" then
    if cell.svgLabels.contains "予約可能" then
      match dateMapGet headerCells cellIndex with
      | some dateText =>
        match parseSlotDate dateText with
        | some (month, day) =>
          if slotMs n month day < nowMs n then []
          else if cell.svgLabels.contains "休" || cell.svgLabels.contains "×" then []
          else [⟨location, category, dateText, true⟩]
        | none => []
      | none => []
    else []
  else []

/-- The slots contributed by one row (the `rows.forEach` body). -/
def rowSlots (headerCells : List Cell) (n : Now) (tgt : Target) (r : Row) : List Slot :=
  if r.id == "height_head" || r.id == "height_headday" then []
  else
    let location := rowLocation r
    if location != tgt.location then []
    else
      let category := rowCategory r
      if category != tgt.category then []
      else (r.cells.enum.flatMap fun p => cellSlots headerCells n location category p.1 p.2)

/-- The Page Query Logic: `findAvailableSlots` from the script built by
`createSlotScript`, as a pure function of the table snapshot, the current
Tokyo instant and the target injected into the script. -/
def findAvailableSlots (page : Option Table) (n : Now) (tgt : Target) : List Slot :=
  match page with
  | none => []
  | some table =>
    match table.rows.find? (fun r => r.id == "height_headday") with
    | none => []
    | some headerRow => table.rows.flatMap (rowSlots headerRow.cells n tgt)

/-! ## Polling Driver model

`CheckAvailability` (src/internal/browser/browser.go) interleaves browser
effects with control flow. The browser is an oracle giving, for each
navigation attempt and for each page index (number of next-clicks so
far), the outcome of every effect the Go code performs. -/

/-- The errors `CheckAvailability` can return, one per `fmt.Errorf`
site. -/
inductive BrowserError where
  | failedToLoad
  | failedToFindElements
  | failedToCheckButton
  | failedToClickButton
deriving DecidableEq

/-- Oracle for the browser session: `navOk r` is whether the `r`-th
navigation attempt succeeds; per page index `k`, `waitOk k` is whether the
table/icon wait succeeds, `evalSlots k` the slot-script evaluation
(`none` = evaluation error, which the Go code only logs, leaving the slot
slice nil), `nextCheck k` the next-button query (`none` = error, `some b`
= enabled flag), `clickOk k` whether the click succeeds. -/
structure Env where
  navOk : Nat → Bool
  waitOk : Nat → Bool
  evalSlots : Nat → Option (List Slot)
  nextCheck : Nat → Option Bool
  clickOk : Nat → Bool

/-- The slot list held by `availableSlots` after the script evaluation on
page `k`: the evaluated list, or nil when the evaluation errored. -/
def slotsAt (env : Env) (k : Nat) : List Slot := (env.evalSlots k).getD []

/-- The initial-load retry loop: attempts `retry, retry+1, ...` while
fuel (`maxRetries - retry`) remains, succeeding at the first attempt whose
navigation succeeds. -/
def loadOk (navOk : Nat → Bool) : Nat → Nat → Bool
  | _, 0 => false
  | retry, fuel + 1 => if navOk retry then true else loadOk navOk (retry + 1) fuel

/-- Seconds slept before retry number `retry` of the initial load
(`time.Duration(retry) * time.Second`; attempt 0 sleeps nothing). -/
def retrySleepSeconds (retry : Nat) : Nat := retry

/-- The pagination loop of `CheckAvailability`, at page index `k` with
`remaining = maxPages - k` iterations of budget left. -/
def pageLoop (env : Env) : Nat → Nat → Except BrowserError (List Slot)
  | _, 0 => .ok []
  | k, remaining + 1 =>
    if env.waitOk k then
      let availableSlots := slotsAt env k
      if 0 < availableSlots.length then .ok availableSlots
      else
        match env.nextCheck k with
        | none => .error .failedToCheckButton
        | some nextButtonEnabled =>
          if nextButtonEnabled then
            if env.clickOk k then pageLoop env (k + 1) remaining
            else .error .failedToClickButton
          else .ok []
    else .error .failedToFindElements

/-- `CheckAvailability`: navigate with up to 3 retries, then run the
pagination loop; a nil slot slice with nil error is `.ok []`. -/
def CheckAvailability (env : Env) (maxPages : Nat) : Except BrowserError (List Slot) :=
  if loadOk env.navOk 0 3 then pageLoop env 0 maxPages
  else .error .failedToLoad

/-- An `Env` whose slot-script evaluations are the Page Query Logic run
on per-page table snapshots (the `chromedp.Evaluate` of the script built
by `createSlotScript`). -/
def envOfPages (pages : Nat → Option Table) (n : Now) (tgt : Target)
    (navOk waitOk : Nat → Bool) (nextCheck : Nat → Option Bool) (clickOk : Nat → Bool) : Env :=
  { navOk := navOk
    waitOk := waitOk
    evalSlots := fun k => some (findAvailableSlots (pages k) n tgt)
    nextCheck := nextCheck
    clickOk := clickOk }

/-! ## Notifier model (src/pkg/line/line.go)

The HTTP transport is an oracle: the POST either fails in transit or
yields a status code. Results pair the returned Go error with whether an
HTTP request was issued (`client.Do` reached). -/

/-- The LINE client configuration. -/
structure Client where
  channelToken : String
  userID : String
  noNotify : Bool
deriving DecidableEq

/-- The errors the notifier can return, one per `fmt.Errorf` site that is
reachable for the fixed URL and slot payloads. -/
inductive LineError where
  | incompleteConfig
  | transportFailed
  | badStatus (code : Nat)
deriving DecidableEq

/-- Outcome of the POST to the messaging endpoint. -/
inductive HttpOutcome where
  | transportFail
  | response (status : Nat)
deriving DecidableEq

/-- `sendMessage`: incomplete credentials abort before any request;
otherwise the request is issued and a transport failure or a status other
than 200 (`http.StatusOK`) is an error. The second component records
whether the HTTP request was issued. -/
def sendMessage (c : Client) (outcome : HttpOutcome) : Option LineError × Bool :=
  if c.channelToken == "" || c.userID == "" then (some .incompleteConfig, false)
  else
    match outcome with
    | .transportFail => (some .transportFailed, true)
    | .response status =>
      if status ≠ 200 then (some (.badStatus status), true) else (none, true)

/-- `NotifyAvailableSlots`: nil on an empty list; a logged skip (no HTTP
call, nil error) when `noNotify` is set; otherwise `sendMessage`. -/
def NotifyAvailableSlots (c : Client) (outcome : HttpOutcome) (slots : List Slot) :
    Option LineError × Bool :=
  if slots.length == 0 then (none, false)
  else if c.noNotify then (none, false)
  else sendMessage c outcome

/-- Modelled from the spec: "non-2xx response" — a status is 2xx when it
lies in [200, 300). -/
def is2xx (status : Nat) : Bool := decide (200 ≤ status) && decide (status < 300)

/-! ## Process Loop model (cmd main)

One iteration of the main loop, as a function of the consecutive-error
counter, the `CheckAvailability` result, and the notification result when
one is attempted (the Go code only logs the latter). Returns the new
counter and the seconds waited before the next cycle. -/

/-- One main-loop iteration: on error, increment the counter and back off
`n*n` seconds capped at 5 minutes; on success, reset the counter, notify
(logging any notification error), and wait 15 minutes. -/
def mainLoopIter (consecutiveErrors : Nat) (checkResult : Except BrowserError (List Slot))
    (notifyResult : Option LineError) : Nat × Nat :=
  match checkResult with
  | .error _ =>
    let n := consecutiveErrors + 1
    let backoff := n * n
    (n, if 300 < backoff then 300 else backoff)
  | .ok _ =>
    let _ := notifyResult
    (0, 900)

/-! ## Qualifying-cell counts for the Page Query Logic -/

/-- A cell qualifies under the script's filter: selectable
(`tdSelect`+`enable`), carries the availability icon, has a header-mapped
date that parses, that date's midnight is not before the current instant,
and no closed icon. -/
def qualifiesCell (headerCells : List Cell) (n : Now) (cellIndex : Nat) (cell : Cell) : Bool :=
  (cell.classes.contains "tdSelect" && cell.classes.contains "enable")
  && cell.svgLabels.contains "予約可能"
  && (match dateMapGet headerCells cellIndex with
      | some dateText =>
        match parseSlotDate dateText with
        | some (month, day) => decide (¬ slotMs n month day < nowMs n)
        | none => false
      | none => false)
  && !(cell.svgLabels.contains "休" || cell.svgLabels.contains "×")

/-- A row passes the script's row filter: not a header row and matching
the target location and category. -/
def rowTargets (tgt : Target) (r : Row) : Bool :=
  !(r.id == "height_head" || r.id == "height_headday")
  && rowLocation r == tgt.location && rowCategory r == tgt.category

/-- Number of qualifying cells of a table, under the script's own
past-date test (midnight of the slot date against the current instant). -/
def qualifyingCount (t : Table) (n : Now) (tgt : Target) : Nat :=
  match t.rows.find? (fun r => r.id == "height_headday") with
  | none => 0
  | some headerRow =>
    (t.rows.map (fun r =>
      if rowTargets tgt r then
        r.cells.enum.countP (fun p => qualifiesCell headerRow.cells n p.1 p.2)
      else 0)).sum

/-- Modelled from the spec: a cell qualifies when selectable, marked
available, carrying a header-mapped date that is "not dated in the past"
at date granularity (`dateInPast`), and not marked closed. -/
def specQualifiesCell (headerCells : List Cell) (n : Now) (cellIndex : Nat) (cell : Cell) : Bool :=
  (cell.classes.contains "tdSelect" && cell.classes.contains "enable")
  && cell.svgLabels.contains "予約可能"
  && (match dateMapGet headerCells cellIndex with
      | some dateText =>
        match parseSlotDate dateText with
        | some (month, day) => !dateInPast n month day
        | none => false
      | none => false)
  && !(cell.svgLabels.contains "休" || cell.svgLabels.contains "×")

/-- Modelled from the spec: the slot count the claim predicts — one slot
per available, not-past-dated (date granularity), not-closed cell of a
target row. -/
def specSlotCount (t : Table) (n : Now) (tgt : Target) : Nat :=
  match t.rows.find? (fun r => r.id == "height_headday") with
  | none => 0
  | some headerRow =>
    (t.rows.map (fun r =>
      if rowTargets tgt r then
        r.cells.enum.countP (fun p => specQualifiesCell headerRow.cells n p.1 p.2)
      else 0)).sum

/-! ## Concrete instances used by witnesses and counterexamples -/

/-- A target filter for concrete tables. -/
def targetW : Target := ⟨"L", "C"⟩

/-- Noon Tokyo time on 2025-07-30. -/
def nowNoon : Now := ⟨2025, 7, 30, 43200000⟩

/-- A header row mapping column 1 to the current date and column 2 to a
future date. -/
def headerRowW : Row :=
  ⟨"height_headday",
   [⟨true, [], "", [], none⟩,
    ⟨false, [], "07/30 (Wed)", [], none⟩,
    ⟨false, [], "08/02 (Sat)", [], none⟩]⟩

/-- A `th` cell carrying both the location anchor and the category
class. -/
def targetHeaderCell : Cell := ⟨true, ["main_color"], "C", [], some "L"⟩

/-- A selectable cell carrying the availability icon. -/
def availableCell : Cell := ⟨false, ["tdSelect", "enable"], "", ["予約可能"], none⟩

/-- A selectable cell carrying both the availability icon and the closed
icon. -/
def closedCell : Cell := ⟨false, ["tdSelect", "enable"], "", ["予約可能", "休"], none⟩

/-- A table whose only available cell sits in the column dated today. -/
def tableToday : Table := ⟨[headerRowW, ⟨"", [targetHeaderCell, availableCell]⟩]⟩

/-- A table with available cells in today's column and in a future
column. -/
def tableFuture : Table := ⟨[headerRowW, ⟨"", [targetHeaderCell, availableCell, availableCell]⟩]⟩

/-- The slot the page query emits on `tableFuture`. -/
def slotFuture : Slot := ⟨"L", "C", "08/02", true⟩

/-- A notifier client with notifications disabled. -/
def clientNoNotify : Client := ⟨"token", "user", true⟩

/-- A notifier client with complete credentials and notifications
enabled. -/
def clientW : Client := ⟨"token", "user", false⟩

/-- A browser oracle whose second page holds a slot and where every
effect succeeds. -/
def envW : Env :=
  { navOk := fun _ => true
    waitOk := fun _ => true
    evalSlots := fun k => some (if k = 1 then [slotFuture] else [])
    nextCheck := fun _ => some true
    clickOk := fun _ => true }

/-- A browser oracle with no slots anywhere and the next-period control
disabled on the first page. -/
def envDisabled : Env :=
  { navOk := fun _ => true
    waitOk := fun _ => true
    evalSlots := fun _ => some []
    nextCheck := fun _ => some false
    clickOk := fun _ => true }

/-- A browser oracle running the Page Query Logic on `tableFuture` for
every page. -/
def envPagesW : Env :=
  envOfPages (fun _ => some tableFuture) nowNoon targetW
    (fun _ => true) (fun _ => true) (fun _ => some true) (fun _ => true)

/-! ## Helper lemmas about the Page Query Logic -/

/-- Every slot a cell contributes carries the row's location/category,
`available = true`, and a date whose parsed value is not before `now`. -/
theorem mem_cellSlots {hc : List Cell} {n : Now} {loc cat : String} {i : Nat} {c : Cell}
    {s : Slot} (h : s ∈ cellSlots hc n loc cat i c) :
    s.location = loc ∧ s.category = cat ∧ s.available = true ∧
      ∃ m d, parseSlotDate s.date = some (m, d) ∧ nowMs n ≤ slotMs n m d := by
  unfold cellSlots at h
  repeat' split at h
  all_goals simp_all
  rename_i month day hsel havail hmap hparse hle hclosed
  exact ⟨month, day, ⟨rfl, rfl⟩, hle⟩

/-- Every slot a row contributes matches the target and is marked
available, with a date not before `now`. -/
theorem mem_rowSlots {hc : List Cell} {n : Now} {tgt : Target} {r : Row} {s : Slot}
    (h : s ∈ rowSlots hc n tgt r) :
    s.location = tgt.location ∧ s.category = tgt.category ∧ s.available = true ∧
      ∃ m d, parseSlotDate s.date = some (m, d) ∧ nowMs n ≤ slotMs n m d := by
  unfold rowSlots at h
  repeat' split at h
  all_goals simp_all
  obtain ⟨a, b, hp, hmem⟩ := h
  obtain ⟨cl, hpair, hmem2⟩ := hmem
  exact mem_cellSlots hmem2

/-- Every slot the Page Query Logic emits matches the target, is marked
available, and carries a date not before `now`. -/
theorem mem_findAvailableSlots {page : Option Table} {n : Now} {tgt : Target} {s : Slot}
    (h : s ∈ findAvailableSlots page n tgt) :
    s.location = tgt.location ∧ s.category = tgt.category ∧ s.available = true ∧
      ∃ m d, parseSlotDate s.date = some (m, d) ∧ nowMs n ≤ slotMs n m d := by
  unfold findAvailableSlots at h
  repeat' split at h
  all_goals simp_all
  obtain ⟨r, hr, hmem⟩ := h
  exact mem_rowSlots hmem

/-- A cell contributes exactly one slot when it qualifies, none
otherwise. -/
theorem length_cellSlots (hc : List Cell) (n : Now) (loc cat : String) (i : Nat) (c : Cell) :
    (cellSlots hc n loc cat i c).length = if qualifiesCell hc n i c then 1 else 0 := by
  unfold cellSlots qualifiesCell
  repeat' split
  all_goals simp_all

/-- Summing singleton-or-empty contributions counts the qualifying
elements. -/
theorem map_length_sum_countP {α β : Type} (l : List α) (f : α → List β) (q : α → Bool)
    (h : ∀ a ∈ l, (f a).length = if q a then 1 else 0) :
    (List.map (List.length ∘ f) l).sum = l.countP q := by
  induction l with
  | nil => simp
  | cons a t ih =>
    simp only [List.map_cons, List.sum_cons, List.countP_cons, Function.comp]
    rw [h a (by simp), ih (fun x hx => h x (by simp [hx]))]
    split <;> omega

/-- A row contributes exactly its number of qualifying cells when it
passes the row filter, none otherwise. -/
theorem length_rowSlots (hc : List Cell) (n : Now) (tgt : Target) (r : Row) :
    (rowSlots hc n tgt r).length =
      if rowTargets tgt r then
        r.cells.enum.countP (fun p => qualifiesCell hc n p.1 p.2)
      else 0 := by
  unfold rowSlots rowTargets
  repeat' split
  all_goals simp_all
  apply map_length_sum_countP
  intro p hp
  exact length_cellSlots hc n _ _ p.1 p.2

/-- Claim C1 (amended): for every table snapshot, the Page Query Logic
returns exactly one slot record per qualifying cell — a cell of a row
matching the target that is selectable (`tdSelect`+`enable`), carries the
availability icon, has a header-mapped parseable date whose midnight
(Asia/Tokyo, month earlier than the current month read as next year) is
not before the current instant, and carries no closed icon. In
particular, with K such cells the result has length exactly K. -/
theorem pageQuery_count_eq_qualifying (t : Table) (n : Now) (tgt : Target) :
    (findAvailableSlots (some t) n tgt).length = qualifyingCount t n tgt := by
  simp only [findAvailableSlots, qualifyingCount]
  split
  · rfl
  · rw [List.length_flatMap]
    apply congrArg List.sum
    apply List.map_congr_left
    intro r hr
    exact length_rowSlots _ n tgt r

/-- Claim C1 (counterexample to the claim as stated): on a table whose
single available cell is dated today, with the current Tokyo time at noon
— so the cell is not "dated in the past" relative to the current date —
the spec-side count is 1 but the Page Query Logic returns no slot: the
script compares the slot's midnight against the current instant,
excluding today's cells whenever the time is past midnight. -/
theorem pageQuery_today_cell_counterexample :
    specSlotCount tableToday nowNoon targetW = 1 ∧
    (findAvailableSlots (some tableToday) nowNoon targetW).length = 0 ∧
    ¬ (findAvailableSlots (some tableToday) nowNoon targetW).length
        = specSlotCount tableToday nowNoon targetW := by
  refine ⟨by decide, by decide, by decide⟩

/-! ## Helper lemmas about the pagination loop -/

/-- Under error-free effects with the next control always enabled, the
pagination loop starting at page `k` with `r` pages of budget returns the
first non-empty query result, or nil when all `r` queries are empty. -/
theorem pageLoop_first_nonempty (env : Env) (hw : ∀ k, env.waitOk k = true)
    (hn : ∀ k, env.nextCheck k = some true) (hc : ∀ k, env.clickOk k = true) :
    ∀ r k,
      (∃ j < r, slotsAt env (k + j) ≠ [] ∧ (∀ i < j, slotsAt env (k + i) = []) ∧
        pageLoop env k r = .ok (slotsAt env (k + j)))
      ∨ ((∀ j < r, slotsAt env (k + j) = []) ∧ pageLoop env k r = .ok []) := by
  intro r
  induction r with
  | zero =>
    intro k
    exact Or.inr ⟨fun j hj => absurd hj (Nat.not_lt_zero j), rfl⟩
  | succ r ih =>
    intro k
    by_cases hs : slotsAt env k = []
    · have hloop : pageLoop env k (r + 1) = pageLoop env (k + 1) r := by
        rw [pageLoop.eq_2]
        simp [hw k, hs, hn k, hc k]
      rcases ih (k + 1) with ⟨j, hj, hne, hemp, heq⟩ | ⟨hemp, heq⟩
      · left
        refine ⟨j + 1, Nat.succ_lt_succ hj, ?_, ?_, ?_⟩
        · have : k + (j + 1) = k + 1 + j := by omega
          rw [this]; exact hne
        · intro i hi
          match i, hi with
          | 0, _ => simpa using hs
          | i + 1, hi =>
            have : k + (i + 1) = k + 1 + i := by omega
            rw [this]; exact hemp i (by omega)
        · have : k + (j + 1) = k + 1 + j := by omega
          rw [this, hloop]; exact heq
      · right
        refine ⟨?_, by rw [hloop]; exact heq⟩
        intro j hj
        match j, hj with
        | 0, _ => simpa using hs
        | j + 1, hj =>
          have : k + (j + 1) = k + 1 + j := by omega
          rw [this]; exact hemp j (by omega)
    · left
      refine ⟨0, Nat.succ_pos r, by simpa using hs, fun i hi => absurd hi (Nat.not_lt_zero i), ?_⟩
      rw [pageLoop.eq_2]
      simp only [hw k, if_true]
      rw [if_pos (List.length_pos.mpr hs)]
      simp

/-- If every page up to `j` is error-free and slotless and the next
control is disabled at page `j`, the pagination loop returns nil. -/
theorem pageLoop_next_disabled (env : Env) :
    ∀ j r k, j < r →
      (∀ i, i ≤ j → env.waitOk (k + i) = true) →
      (∀ i, i ≤ j → slotsAt env (k + i) = []) →
      (∀ i, i < j → env.nextCheck (k + i) = some true) →
      (∀ i, i < j → env.clickOk (k + i) = true) →
      env.nextCheck (k + j) = some false →
      pageLoop env k r = .ok [] := by
  intro j
  induction j with
  | zero =>
    intro r k hr hw hs hn hc hd
    obtain ⟨r', rfl⟩ : ∃ r', r = r' + 1 := ⟨r - 1, by omega⟩
    rw [pageLoop.eq_2]
    have hw0 := hw 0 (Nat.le_refl 0)
    have h0 := hs 0 (Nat.le_refl 0)
    simp only [Nat.add_zero] at hw0 h0 hd
    simp [hw0, h0, hd]
  | succ j ih =>
    intro r k hr hw hs hn hc hd
    obtain ⟨r', rfl⟩ : ∃ r', r = r' + 1 := ⟨r - 1, by omega⟩
    have h0 := hs 0 (Nat.zero_le _)
    simp only [Nat.add_zero] at h0
    have hstep : pageLoop env k (r' + 1) = pageLoop env (k + 1) r' := by
      rw [pageLoop.eq_2]
      have hw0 := hw 0 (Nat.zero_le _)
      have hn0 := hn 0 (Nat.succ_pos j)
      have hc0 := hc 0 (Nat.succ_pos j)
      simp only [Nat.add_zero] at hw0 hn0 hc0
      simp [hw0, h0, hn0, hc0]
    rw [hstep]
    refine ih r' (k + 1) (by omega) ?_ ?_ ?_ ?_ ?_
    · intro i hi
      have : k + 1 + i = k + (i + 1) := by omega
      rw [this]; exact hw (i + 1) (by omega)
    · intro i hi
      have : k + 1 + i = k + (i + 1) := by omega
      rw [this]; exact hs (i + 1) (by omega)
    · intro i hi
      have : k + 1 + i = k + (i + 1) := by omega
      rw [this]; exact hn (i + 1) (by omega)
    · intro i hi
      have : k + 1 + i = k + (i + 1) := by omega
      rw [this]; exact hc (i + 1) (by omega)
    · have : k + 1 + j = k + (j + 1) := by omega
      rw [this]; exact hd

/-- The pagination loop never produces the failed-to-load error. -/
theorem pageLoop_ne_failedToLoad (env : Env) :
    ∀ r k, pageLoop env k r ≠ .error .failedToLoad := by
  intro r
  induction r with
  | zero => intro k h; exact Except.noConfusion h
  | succ r ih =>
    intro k h
    unfold pageLoop at h
    split at h
    · by_cases hpos : 0 < (slotsAt env k).length
      · rw [if_pos hpos] at h
        exact Except.noConfusion h
      · rw [if_neg hpos] at h
        split at h
        · injection h with h2
          exact BrowserError.noConfusion h2
        · split at h
          · split at h
            · exact ih (k + 1) h
            · injection h with h2
              exact BrowserError.noConfusion h2
          · exact Except.noConfusion h
    · injection h with h2
      exact BrowserError.noConfusion h2

/-- Every successful pagination result is nil or one of the per-page
query results. -/
theorem pageLoop_ok_sources (env : Env) :
    ∀ r k l, pageLoop env k r = .ok l → l = [] ∨ ∃ j, l = slotsAt env j := by
  intro r
  induction r with
  | zero =>
    intro k l h
    simp only [pageLoop] at h
    exact Or.inl (Except.ok.inj h).symm
  | succ r ih =>
    intro k l h
    unfold pageLoop at h
    split at h
    · by_cases hpos : 0 < (slotsAt env k).length
      · rw [if_pos hpos] at h
        exact Or.inr ⟨k, (Except.ok.inj h).symm⟩
      · rw [if_neg hpos] at h
        split at h
        · exact Except.noConfusion h
        · split at h
          · split at h
            · exact ih (k + 1) l h
            · exact Except.noConfusion h
          · exact Or.inl (Except.ok.inj h).symm
    · exact Except.noConfusion h

/-- Claim C2: with the page budget `maxPages`, error-free browser effects
and an enabled next control, `CheckAvailability` returns the first
non-empty slot list produced while paging forward — immediately, with all
earlier pages having produced nothing — or nil slots with nil error when
no page within the budget yields a slot. -/
theorem checkAvailability_first_nonempty (env : Env) (maxPages : Nat)
    (hl : loadOk env.navOk 0 3 = true)
    (hw : ∀ k, env.waitOk k = true)
    (hn : ∀ k, env.nextCheck k = some true)
    (hc : ∀ k, env.clickOk k = true) :
    (∃ j < maxPages, slotsAt env j ≠ [] ∧ (∀ i < j, slotsAt env i = []) ∧
      CheckAvailability env maxPages = .ok (slotsAt env j))
    ∨ ((∀ j < maxPages, slotsAt env j = []) ∧ CheckAvailability env maxPages = .ok []) := by
  have h := pageLoop_first_nonempty env hw hn hc maxPages 0
  unfold CheckAvailability
  rw [if_pos hl]
  simpa using h

/-- Claim C2 witness: on a concrete oracle whose second page carries a
slot, `CheckAvailability` returns that page's slots. -/
theorem checkAvailability_first_nonempty_witness :
    (loadOk envW.navOk 0 3 = true ∧ (∀ k, envW.waitOk k = true) ∧
      (∀ k, envW.nextCheck k = some true) ∧ (∀ k, envW.clickOk k = true)) ∧
    ((∃ j < 3, slotsAt envW j ≠ [] ∧ (∀ i < j, slotsAt envW i = []) ∧
        CheckAvailability envW 3 = .ok (slotsAt envW j))
      ∨ ((∀ j < 3, slotsAt envW j = []) ∧ CheckAvailability envW 3 = .ok [])) :=
  ⟨⟨by decide, fun _ => rfl, fun _ => rfl, fun _ => rfl⟩,
    checkAvailability_first_nonempty envW 3 (by decide) (fun _ => rfl) (fun _ => rfl)
      (fun _ => rfl)⟩

/-- Claim C6: when no slots were found up to a page on which the
next-period control is reported disabled, `CheckAvailability` stops
paginating and returns nil slots with nil error. -/
theorem checkAvailability_next_disabled_stops (env : Env) (maxPages j : Nat)
    (hl : loadOk env.navOk 0 3 = true) (hj : j < maxPages)
    (hw : ∀ i, i ≤ j → env.waitOk i = true)
    (hs : ∀ i, i ≤ j → slotsAt env i = [])
    (hn : ∀ i, i < j → env.nextCheck i = some true)
    (hc : ∀ i, i < j → env.clickOk i = true)
    (hd : env.nextCheck j = some false) :
    CheckAvailability env maxPages = .ok [] := by
  unfold CheckAvailability
  rw [if_pos hl]
  refine pageLoop_next_disabled env j maxPages 0 hj ?_ ?_ ?_ ?_ ?_
  · intro i hi; simpa using hw i hi
  · intro i hi; simpa using hs i hi
  · intro i hi; simpa using hn i hi
  · intro i hi; simpa using hc i hi
  · simpa using hd

/-- Claim C6 witness: a concrete oracle with the next control disabled on
the slotless first page. -/
theorem checkAvailability_next_disabled_stops_witness :
    (loadOk envDisabled.navOk 0 3 = true ∧ 0 < 2 ∧
      (∀ i, i ≤ 0 → envDisabled.waitOk i = true) ∧
      (∀ i, i ≤ 0 → slotsAt envDisabled i = []) ∧
      envDisabled.nextCheck 0 = some false) ∧
    CheckAvailability envDisabled 2 = .ok [] :=
  ⟨⟨by decide, by decide, fun _ _ => rfl, fun _ _ => rfl, rfl⟩,
    checkAvailability_next_disabled_stops envDisabled 2 0 (by decide) (by decide)
      (fun _ _ => rfl) (fun _ _ => rfl)
      (fun i hi => absurd hi (Nat.not_lt_zero i))
      (fun i hi => absurd hi (Nat.not_lt_zero i)) rfl⟩

/-- The three-attempt retry loop unfolded. -/
theorem loadOk_three (navOk : Nat → Bool) :
    loadOk navOk 0 3 =
      (if navOk 0 then true else if navOk 1 then true else if navOk 2 then true else false) :=
  rfl

/-- Claim C8: `CheckAvailability` returns the failed-to-load error
exactly when all 3 navigation attempts fail, and the backoff slept before
each retry grows with the retry number. -/
theorem checkAvailability_load_retries (env : Env) (maxPages : Nat) :
    (CheckAvailability env maxPages = .error .failedToLoad ↔
      env.navOk 0 = false ∧ env.navOk 1 = false ∧ env.navOk 2 = false)
    ∧ (∀ r, retrySleepSeconds r < retrySleepSeconds (r + 1)) := by
  have hL := loadOk_three env.navOk
  constructor
  · constructor
    · intro h
      unfold CheckAvailability at h
      by_cases hld : loadOk env.navOk 0 3 = true
      · rw [if_pos hld] at h
        exact absurd h (pageLoop_ne_failedToLoad env maxPages 0)
      · rw [hL] at hld
        cases h0 : env.navOk 0 <;> cases h1 : env.navOk 1 <;> cases h2 : env.navOk 2 <;>
          simp_all
    · rintro ⟨h0, h1, h2⟩
      unfold CheckAvailability
      rw [hL, h0, h1, h2]
      simp
  · intro r
    exact Nat.lt_succ_self r

/-- Claim C10: when the slot-script evaluations are the Page Query Logic
on per-page snapshots, every slot in a list returned by
`CheckAvailability` has the Target's location and category and
`available = true`. -/
theorem checkAvailability_slots_match_target (pages : Nat → Option Table) (n : Now)
    (tgt : Target) (navOk waitOk : Nat → Bool) (nextCheck : Nat → Option Bool)
    (clickOk : Nat → Bool) (maxPages : Nat) (l : List Slot) (s : Slot)
    (h : CheckAvailability (envOfPages pages n tgt navOk waitOk nextCheck clickOk) maxPages
        = .ok l)
    (hs : s ∈ l) :
    s.location = tgt.location ∧ s.category = tgt.category ∧ s.available = true := by
  unfold CheckAvailability at h
  split at h
  · rcases pageLoop_ok_sources _ maxPages 0 l h with rfl | ⟨j, rfl⟩
    · exact absurd hs (List.not_mem_nil s)
    · have hs' : s ∈ findAvailableSlots (pages j) n tgt := by
        simpa [slotsAt, envOfPages] using hs
      obtain ⟨h1, h2, h3, _⟩ := mem_findAvailableSlots hs'
      exact ⟨h1, h2, h3⟩
  · exact Except.noConfusion h

/-- Claim C10 witness: a concrete page sequence on which
`CheckAvailability` returns one slot, matching the target. -/
theorem checkAvailability_slots_match_target_witness :
    (CheckAvailability envPagesW 1 = .ok [slotFuture] ∧ slotFuture ∈ [slotFuture]) ∧
    (slotFuture.location = targetW.location ∧ slotFuture.category = targetW.category ∧
      slotFuture.available = true) :=
  ⟨⟨by rfl, by decide⟩,
    checkAvailability_slots_match_target (fun _ => some tableFuture) nowNoon targetW
      (fun _ => true) (fun _ => true) (fun _ => some true) (fun _ => true) 1
      [slotFuture] slotFuture (by rfl) (by decide)⟩

/-- Claim C3: the Page Query Logic never includes a slot for a cell whose
header-mapped date is in the past relative to the current date in the
fixed Asia/Tokyo timezone (month earlier than the current month read as
next year): every emitted slot's date parses and is not a past date. -/
theorem pageQuery_skips_past_dates (t : Table) (n : Now) (tgt : Target) (s : Slot)
    (hms : 0 ≤ n.msOfDay) (hmem : s ∈ findAvailableSlots (some t) n tgt) :
    ∃ m d, parseSlotDate s.date = some (m, d) ∧ dateInPast n m d = false := by
  obtain ⟨-, -, -, m, d, hp, hle⟩ := mem_findAvailableSlots hmem
  refine ⟨m, d, hp, ?_⟩
  unfold dateInPast
  simp only [decide_eq_false_iff_not, not_lt]
  unfold slotMs nowMs at hle
  omega

/-- Claim C3 witness: a concrete emitted slot whose date is not in the
past. -/
theorem pageQuery_skips_past_dates_witness :
    (0 ≤ nowNoon.msOfDay ∧ slotFuture ∈ findAvailableSlots (some tableFuture) nowNoon targetW) ∧
    (∃ m d, parseSlotDate slotFuture.date = some (m, d) ∧ dateInPast nowNoon m d = false) :=
  ⟨⟨by decide, by decide⟩,
    pageQuery_skips_past_dates tableFuture nowNoon targetW slotFuture (by decide) (by decide)⟩

/-- Claim C4: a cell carrying a closed icon (an svg labelled 休 or ×)
never contributes a slot, even when it also carries the availability icon
and a valid future date. -/
theorem pageQuery_skips_closed_cells (headerCells : List Cell) (n : Now)
    (location category : String) (cellIndex : Nat) (cell : Cell)
    (h : (cell.svgLabels.contains "休" || cell.svgLabels.contains "×") = true) :
    cellSlots headerCells n location category cellIndex cell = [] := by
  unfold cellSlots
  repeat' split
  all_goals simp_all

/-- Claim C4 witness: a selectable, available, future-dated cell with the
closed icon contributes nothing. -/
theorem pageQuery_skips_closed_cells_witness :
    ((closedCell.svgLabels.contains "休" || closedCell.svgLabels.contains "×") = true) ∧
    cellSlots headerRowW.cells nowNoon "L" "C" 2 closedCell = [] :=
  ⟨by decide,
    pageQuery_skips_closed_cells headerRowW.cells nowNoon "L" "C" 2 closedCell (by decide)⟩

/-- Claim C5: for a non-empty slot list with the `noNotify` flag set,
`NotifyAvailableSlots` issues no HTTP call and returns nil. -/
theorem notify_disabled_no_http (c : Client) (outcome : HttpOutcome) (slots : List Slot)
    (hne : slots ≠ []) (hn : c.noNotify = true) :
    NotifyAvailableSlots c outcome slots = (none, false) := by
  unfold NotifyAvailableSlots
  rw [if_neg (by simp [hne]), if_pos hn]

/-- Claim C5 witness: a concrete disabled client with one slot. -/
theorem notify_disabled_no_http_witness :
    (([slotFuture] : List Slot) ≠ [] ∧ clientNoNotify.noNotify = true) ∧
    NotifyAvailableSlots clientNoNotify (.response 200) [slotFuture] = (none, false) :=
  ⟨⟨by decide, rfl⟩,
    notify_disabled_no_http clientNoNotify (.response 200) [slotFuture] (by decide) rfl⟩

/-- Claim C7: after an erroring cycle the loop waits `n * n` seconds
where `n` is the consecutive-error count including this failure, capped
at 5 minutes; after a non-erroring cycle the counter resets to 0 and the
loop waits the fixed 15 minutes. -/
theorem processLoop_backoff_and_reset (n : Nat) (e : BrowserError)
    (ne nok : Option LineError) (slots : List Slot) :
    mainLoopIter n (.error e) ne = (n + 1, min ((n + 1) * (n + 1)) 300)
    ∧ mainLoopIter n (.ok slots) nok = (0, 900) := by
  constructor
  · unfold mainLoopIter
    refine Prod.ext rfl ?_
    simp only
    split <;> omega
  · rfl

/-- Claim C9 (amended): with complete credentials, `sendMessage` returns
an error exactly when the transport fails or the response status differs
from 200 (`http.StatusOK`); the error is non-fatal — after any successful
check cycle the process loop's consecutive-error counter is 0 whatever
the notification result. -/
theorem sendMessage_error_iff_nonfatal (c : Client) (outcome : HttpOutcome)
    (ht : c.channelToken ≠ "") (hu : c.userID ≠ "") :
    ((sendMessage c outcome).1 ≠ none ↔
      outcome = .transportFail ∨ ∃ code, outcome = .response code ∧ code ≠ 200)
    ∧ (∀ (k : Nat) (slots : List Slot) (ne : Option LineError),
        (mainLoopIter k (.ok slots) ne).1 = 0) := by
  constructor
  · unfold sendMessage
    rw [if_neg (by simp [ht, hu])]
    cases outcome with
    | transportFail => simp
    | response status =>
      by_cases hs : status = 200
      · subst hs; simp
      · simp [hs]
  · intro k slots ne
    rfl

/-- Claim C9 witness: a transport failure with complete credentials is an
error. -/
theorem sendMessage_error_iff_nonfatal_witness :
    (clientW.channelToken ≠ "" ∧ clientW.userID ≠ "") ∧
    (((sendMessage clientW .transportFail).1 ≠ none ↔
        (HttpOutcome.transportFail = .transportFail ∨
          ∃ code, HttpOutcome.transportFail = .response code ∧ code ≠ 200))
      ∧ (∀ (k : Nat) (slots : List Slot) (ne : Option LineError),
          (mainLoopIter k (.ok slots) ne).1 = 0)) :=
  ⟨⟨by decide, by decide⟩,
    sendMessage_error_iff_nonfatal clientW .transportFail (by decide) (by decide)⟩

/-- Claim C9 (counterexample to the claim as stated): status 204 is 2xx,
yet `sendMessage` returns an error for it — it errors on any status other
than 200, not only on non-2xx statuses. -/
theorem sendMessage_2xx_counterexample :
    ¬ (((sendMessage clientW (.response 204)).1 ≠ none) ↔
        (HttpOutcome.response 204 = .transportFail ∨ is2xx 204 = false)) := by
  decide
